import Mathlib

/-!
Shallow embedding of the py-snake rendering components
(`perspective.py`, `wireframe_cube.py`, `main.py`, `color_system.py`)
and proofs of the specification claims about them.

Numeric convention: the Python code computes with floats; the embedding
uses exact arithmetic instead — rationals (ℚ) for the code paths that
only use field operations (perspective projection, cube geometry, color
hues) and reals (ℝ) for the icosahedron paths that use `math.sqrt`,
`math.cos` and `math.sin`.  Python `a % b` on floats (with `b > 0`) is
`a - b * ⌊a / b⌋`, embedded below as `qfmod` / `rfmod`.
-/

namespace PySnake

/-- Embedding of `perspective.py`: class `PerspectiveCamera`.
Fields are the attributes set by `__init__`. -/
structure PerspectiveCamera where
  screen_width : ℚ
  screen_height : ℚ
  vp_x : ℚ
  vp_y : ℚ
  perspective_strength : ℚ

/-- `PerspectiveCamera.__init__`: optional vanishing-point arguments
default to the screen centre horizontally and 75% down vertically. -/
def PerspectiveCamera.init (screen_width screen_height : ℚ)
    (vanishing_point_x vanishing_point_y : Option ℚ)
    (perspective_strength : ℚ) : PerspectiveCamera :=
  { screen_width := screen_width
    screen_height := screen_height
    vp_x := vanishing_point_x.getD (screen_width / 2)
    vp_y := vanishing_point_y.getD (screen_height * (3 / 4))
    perspective_strength := perspective_strength }

/-- `PerspectiveCamera.project_3d_to_2d`. -/
def PerspectiveCamera.project_3d_to_2d (c : PerspectiveCamera)
    (x y z : ℚ) : ℚ × ℚ :=
  let perspective_factor := c.perspective_strength / (c.perspective_strength + z)
  let screen_x := c.vp_x + (x - c.vp_x) * perspective_factor
  let screen_y := c.vp_y + (y - c.vp_y) * perspective_factor
  (screen_x, screen_y)

/-- `PerspectiveCamera.project_3d_to_2d` with the division guarded the
way Python guards it: float division by zero raises
`ZeroDivisionError`, embedded as `none`. -/
def PerspectiveCamera.project_3d_to_2d_checked (c : PerspectiveCamera)
    (x y z : ℚ) : Option (ℚ × ℚ) :=
  if c.perspective_strength + z = 0 then none
  else some (c.project_3d_to_2d x y z)

/-- `PerspectiveCamera.project_points`: list comprehension over the
input points. -/
def PerspectiveCamera.project_points (c : PerspectiveCamera)
    (points_3d : List (ℚ × ℚ × ℚ)) : List (ℚ × ℚ) :=
  points_3d.map (fun p => c.project_3d_to_2d p.1 p.2.1 p.2.2)

/-- The default camera of the game: `PerspectiveCamera(800, 600)`. -/
def defaultCamera : PerspectiveCamera :=
  PerspectiveCamera.init 800 600 none none 300

/-- Squared Euclidean distance between two screen points; comparing
squared distances is equivalent to comparing Euclidean distances. -/
def distSq2 (p q : ℚ × ℚ) : ℚ :=
  (p.1 - q.1) ^ 2 + (p.2 - q.2) ^ 2

/-- Embedding of `wireframe_cube.py`: class `WireframeCube`.
Fields are the attributes set by `__init__`. -/
structure WireframeCube where
  position : ℚ × ℚ × ℚ
  size : ℚ
  vertices_3d : List (ℚ × ℚ × ℚ)

/-- Class attribute `WireframeCube.UNIT_CUBE_VERTICES`. -/
def WireframeCube.UNIT_CUBE_VERTICES : List (ℚ × ℚ × ℚ) :=
  [(-1, -1, -1), (1, -1, -1), (1, 1, -1), (-1, 1, -1),
   (-1, -1, 1), (1, -1, 1), (1, 1, 1), (-1, 1, 1)]

/-- Class attribute `WireframeCube.EDGES`: back face, front face,
connecting edges. -/
def WireframeCube.EDGES : List (ℕ × ℕ) :=
  [(0, 1), (1, 2), (2, 3), (3, 0),
   (4, 5), (5, 6), (6, 7), (7, 4),
   (0, 4), (1, 5), (2, 6), (3, 7)]

/-- Method `WireframeCube._calculate_world_vertices` (reads only
`self.position` and `self.size`). -/
def WireframeCube.calculate_world_vertices (self : WireframeCube) :
    List (ℚ × ℚ × ℚ) :=
  let half_size := self.size / 2
  WireframeCube.UNIT_CUBE_VERTICES.map (fun v =>
    (self.position.1 + v.1 * half_size,
     self.position.2.1 + v.2.1 * half_size,
     self.position.2.2 + v.2.2 * half_size))

/-- `WireframeCube.__init__`. -/
def WireframeCube.init (position_3d : ℚ × ℚ × ℚ) (size : ℚ) :
    WireframeCube :=
  let base : WireframeCube :=
    { position := position_3d, size := size, vertices_3d := [] }
  { base with vertices_3d := base.calculate_world_vertices }

/-- `WireframeCube.update_position`. -/
def WireframeCube.update_position (self : WireframeCube)
    (new_position : ℚ × ℚ × ℚ) : WireframeCube :=
  let moved : WireframeCube := { self with position := new_position }
  { moved with vertices_3d := moved.calculate_world_vertices }

/-- Embedding of `color_system.py`: class `ColorEvolution`.
`start_time` is the `time.time()` sample taken in `__init__`. -/
structure ColorEvolution where
  cycle_duration : ℚ
  start_time : ℚ

/-- Python float `a % b`, for `b > 0`: `a - b * ⌊a / b⌋`. -/
def qfmod (a b : ℚ) : ℚ :=
  a - b * (⌊a / b⌋ : ℤ)

/-- `ColorEvolution.get_master_hue`, with the current `time.time()`
sample passed explicitly as `now`. -/
def ColorEvolution.get_master_hue (self : ColorEvolution) (now : ℚ) : ℚ :=
  let elapsed := now - self.start_time
  qfmod (elapsed / self.cycle_duration) 1

/-- `ColorEvolution.get_snake_color` up to the HSV triple it feeds to
`colorsys.hsv_to_rgb` (the claims only concern the hue component). -/
def ColorEvolution.get_snake_color (self : ColorEvolution) (now : ℚ) :
    ℚ × ℚ × ℚ :=
  let hue := self.get_master_hue now
  let saturation : ℚ := 8 / 10
  let value : ℚ := 9 / 10
  (hue, saturation, value)

/-- `ColorEvolution.get_apple_color` up to the HSV triple it feeds to
`colorsys.hsv_to_rgb`: hue offset by 0.333 from the master hue. -/
def ColorEvolution.get_apple_color (self : ColorEvolution) (now : ℚ) :
    ℚ × ℚ × ℚ :=
  let hue := qfmod (self.get_master_hue now + 333 / 1000) 1
  let saturation : ℚ := 9 / 10
  let value : ℚ := 95 / 100
  (hue, saturation, value)

/-- Embedding of `main.py`: class `LowPolySphere`.
Fields are the attributes set by `__init__`. -/
structure LowPolySphere where
  position : ℝ × ℝ × ℝ
  size : ℝ
  rotation_angle : ℝ
  rotation_speed : ℝ
  base_vertices : List (ℝ × ℝ × ℝ)
  vertices_3d : List (ℝ × ℝ × ℝ)
  edges : List (ℕ × ℕ)

/-- The golden ratio `(1 + math.sqrt(5)) / 2` used by
`LowPolySphere._generate_icosahedron`. -/
noncomputable def phi : ℝ := (1 + Real.sqrt 5) / 2

/-- The raw vertex list of `LowPolySphere._generate_icosahedron`
before normalization. -/
noncomputable def icoRawVertices : List (ℝ × ℝ × ℝ) :=
  [(-1, phi, 0), (1, phi, 0), (-1, -phi, 0), (1, -phi, 0),
   (0, -1, phi), (0, 1, phi), (0, -1, -phi), (0, 1, -phi),
   (phi, 0, -1), (phi, 0, 1), (-phi, 0, -1), (-phi, 0, 1)]

/-- The normalization step of `LowPolySphere._generate_icosahedron`:
divide each coordinate by `math.sqrt(x*x + y*y + z*z)`. -/
noncomputable def normalizeV (v : ℝ × ℝ × ℝ) : ℝ × ℝ × ℝ :=
  let length := Real.sqrt (v.1 * v.1 + v.2.1 * v.2.1 + v.2.2 * v.2.2)
  (v.1 / length, v.2.1 / length, v.2.2 / length)

/-- `LowPolySphere._generate_icosahedron`. -/
noncomputable def LowPolySphere.generate_icosahedron : List (ℝ × ℝ × ℝ) :=
  icoRawVertices.map normalizeV

/-- `LowPolySphere._generate_edges` (the literal 30-entry list in the
source). -/
def LowPolySphere.generate_edges : List (ℕ × ℕ) :=
  [(0, 11), (0, 5), (0, 1), (0, 7), (0, 10),
   (1, 5), (5, 9), (11, 5), (11, 4), (11, 10),
   (2, 3), (2, 4), (2, 6), (2, 10), (2, 11),
   (1, 7), (1, 9), (3, 9), (3, 4), (3, 6),
   (4, 9), (6, 7), (6, 8), (6, 10), (7, 8),
   (7, 10), (8, 9), (8, 3), (9, 5), (4, 5)]

/-- Number of edge-list entries incident to vertex `v` (counting an
entry once even if both ends equal `v`; no entry is a loop here). -/
def LowPolySphere.edge_degree (v : ℕ) : ℕ :=
  (LowPolySphere.generate_edges.filter
    (fun e => e.1 = v ∨ e.2 = v)).length

/-- Python float `a % b`, for `b > 0`: `a - b * ⌊a / b⌋`. -/
noncomputable def rfmod (a b : ℝ) : ℝ :=
  a - b * (⌊a / b⌋ : ℤ)

/-- `LowPolySphere._rotate_y`: rotate a point about the Y axis by
`angle_deg` degrees (`math.radians`, `math.cos`, `math.sin`). -/
noncomputable def LowPolySphere.rotate_y (point : ℝ × ℝ × ℝ)
    (angle_deg : ℝ) : ℝ × ℝ × ℝ :=
  let angle_rad := angle_deg * Real.pi / 180
  let cos_a := Real.cos angle_rad
  let sin_a := Real.sin angle_rad
  (point.1 * cos_a + point.2.2 * sin_a,
   point.2.1,
   -point.1 * sin_a + point.2.2 * cos_a)

/-- Method `LowPolySphere._calculate_world_vertices` (reads
`self.position`, `self.base_vertices`, `self.rotation_angle`,
`self.size`). -/
noncomputable def LowPolySphere.calculate_world_vertices
    (self : LowPolySphere) : List (ℝ × ℝ × ℝ) :=
  self.base_vertices.map (fun v =>
    let r := LowPolySphere.rotate_y v self.rotation_angle
    (self.position.1 + r.1 * self.size,
     self.position.2.1 + r.2.1 * self.size,
     self.position.2.2 + r.2.2 * self.size))

/-- `LowPolySphere.__init__` (`rotation_angle = 0.0`,
`rotation_speed = 10.0`). -/
noncomputable def LowPolySphere.init (position_3d : ℝ × ℝ × ℝ)
    (size : ℝ) : LowPolySphere :=
  let base : LowPolySphere :=
    { position := position_3d
      size := size
      rotation_angle := 0
      rotation_speed := 10
      base_vertices := LowPolySphere.generate_icosahedron
      vertices_3d := []
      edges := LowPolySphere.generate_edges }
  { base with vertices_3d := base.calculate_world_vertices }

/-- `LowPolySphere.update`: advance the rotation angle modulo 360 and
recompute the world vertices. -/
noncomputable def LowPolySphere.update (self : LowPolySphere)
    (dt : ℝ) : LowPolySphere :=
  let turned : LowPolySphere := { self with
    rotation_angle :=
      rfmod (self.rotation_angle + self.rotation_speed * dt) 360 }
  { turned with vertices_3d := turned.calculate_world_vertices }

/-- `LowPolySphere.update_position`. -/
noncomputable def LowPolySphere.update_position (self : LowPolySphere)
    (new_position : ℝ × ℝ × ℝ) : LowPolySphere :=
  let moved : LowPolySphere := { self with position := new_position }
  { moved with vertices_3d := moved.calculate_world_vertices }

/-- The mutating calls a `LowPolySphere` receives during the game
loop. -/
inductive SphereOp where
  | update (dt : ℝ)
  | move (new_position : ℝ × ℝ × ℝ)

/-- Apply one game-loop call to a sphere. -/
noncomputable def applySphereOp (s : LowPolySphere) :
    SphereOp → LowPolySphere
  | SphereOp.update dt => s.update dt
  | SphereOp.move p => s.update_position p

/-- Apply a sequence of game-loop calls to a sphere, in order. -/
noncomputable def applySphereOps (s : LowPolySphere)
    (ops : List SphereOp) : LowPolySphere :=
  ops.foldl applySphereOp s

/-- Squared Euclidean norm of a 3D point. -/
def normSq3 (v : ℝ × ℝ × ℝ) : ℝ :=
  v.1 ^ 2 + v.2.1 ^ 2 + v.2.2 ^ 2

/-- Squared Euclidean distance between two 3D points. -/
def distSq3 (p q : ℝ × ℝ × ℝ) : ℝ :=
  (p.1 - q.1) ^ 2 + (p.2.1 - q.2.1) ^ 2 + (p.2.2 - q.2.2) ^ 2

/-- The representation invariant `LowPolySphere` maintains: the base
vertices are the generated icosahedron and `vertices_3d` is the list
`_calculate_world_vertices` currently computes. -/
def SphereWF (s : LowPolySphere) : Prop :=
  s.base_vertices = LowPolySphere.generate_icosahedron ∧
  s.vertices_3d = s.calculate_world_vertices

end PySnake

namespace PySnake

/-- C1: for every camera and point with `perspective_strength + z ≠ 0`,
`project_3d_to_2d` returns exactly the one-point-perspective formula;
at `z = 0` the point is unchanged; and `PerspectiveCamera(800, 600)`
has vanishing point `(400, 450)`, maps `(400, 300, 0)` to `(400, 300)`
and `(400, 300, 300)` to `(400, 375)`. -/
theorem C1_project_formula (c : PerspectiveCamera) (x y z : ℚ) :
    (c.perspective_strength + z ≠ 0 →
      c.project_3d_to_2d x y z =
        (c.vp_x + (x - c.vp_x) *
            (c.perspective_strength / (c.perspective_strength + z)),
         c.vp_y + (y - c.vp_y) *
            (c.perspective_strength / (c.perspective_strength + z)))) ∧
    (c.perspective_strength ≠ 0 → c.project_3d_to_2d x y 0 = (x, y)) ∧
    defaultCamera.vp_x = 400 ∧ defaultCamera.vp_y = 450 ∧
    defaultCamera.project_3d_to_2d 400 300 0 = (400, 300) ∧
    defaultCamera.project_3d_to_2d 400 300 300 = (400, 375) := by
  refine ⟨fun _ => rfl, fun hs => ?_, by norm_num [defaultCamera,
    PerspectiveCamera.init], by norm_num [defaultCamera,
    PerspectiveCamera.init], by norm_num [defaultCamera,
    PerspectiveCamera.init, PerspectiveCamera.project_3d_to_2d],
    by norm_num [defaultCamera, PerspectiveCamera.init,
    PerspectiveCamera.project_3d_to_2d]⟩
  simp only [PerspectiveCamera.project_3d_to_2d, add_zero,
    div_self hs, mul_one]
  exact Prod.ext (by ring) (by ring)

/-- Witness for C1 at the default camera and a concrete point. -/
theorem C1_project_formula_witness :
    defaultCamera.perspective_strength + 5 ≠ 0 ∧
    defaultCamera.perspective_strength ≠ 0 ∧
    defaultCamera.project_3d_to_2d 1 2 0 = (1, 2) := by
  refine ⟨by norm_num [defaultCamera, PerspectiveCamera.init], ?_, ?_⟩
  · norm_num [defaultCamera, PerspectiveCamera.init]
  · exact (C1_project_formula defaultCamera 1 2 5).2.1
      (by norm_num [defaultCamera, PerspectiveCamera.init])

/-- C4: under the precondition `perspective_strength + z > 0` the
denominator of the projection is nonzero, the guarded projection takes
no error branch, and it agrees with the pure total function. -/
theorem C4_project_total (c : PerspectiveCamera) (x y z : ℚ)
    (h : 0 < c.perspective_strength + z) :
    c.perspective_strength + z ≠ 0 ∧
    c.project_3d_to_2d_checked x y z = some (c.project_3d_to_2d x y z) := by
  refine ⟨ne_of_gt h, ?_⟩
  simp [PerspectiveCamera.project_3d_to_2d_checked, ne_of_gt h]

/-- Witness for C4 at the default camera, depth 0. -/
theorem C4_project_total_witness :
    0 < defaultCamera.perspective_strength + 0 ∧
    defaultCamera.perspective_strength + 0 ≠ 0 ∧
    defaultCamera.project_3d_to_2d_checked 1 2 0 =
      some (defaultCamera.project_3d_to_2d 1 2 0) := by
  have h : 0 < defaultCamera.perspective_strength + 0 := by
    norm_num [defaultCamera, PerspectiveCamera.init]
  exact ⟨h, C4_project_total defaultCamera 1 2 0 h⟩

/-- C7: `project_points` returns as many points as it is given, in
order, the i-th output being `project_3d_to_2d` of the i-th input. -/
theorem C7_project_points_map (c : PerspectiveCamera)
    (points_3d : List (ℚ × ℚ × ℚ)) :
    (c.project_points points_3d).length = points_3d.length ∧
    ∀ i : ℕ, i < points_3d.length →
      (c.project_points points_3d).getD i (0, 0) =
        c.project_3d_to_2d (points_3d.getD i (0, 0, 0)).1
          (points_3d.getD i (0, 0, 0)).2.1
          (points_3d.getD i (0, 0, 0)).2.2 := by
  refine ⟨List.length_map _ _, fun i hi => ?_⟩
  rw [List.getD_eq_getElem _ _ (by simpa [PerspectiveCamera.project_points]),
    List.getD_eq_getElem _ _ hi]
  simp [PerspectiveCamera.project_points]

/-- Witness for C7 on a two-point list. -/
theorem C7_project_points_map_witness :
    (defaultCamera.project_points [(1, 2, 3), (4, 5, 6)]).length = 2 ∧
    ((1 : ℕ) < 2 ∧
      (defaultCamera.project_points [(1, 2, 3), (4, 5, 6)]).getD 1 (0, 0) =
        defaultCamera.project_3d_to_2d 4 5 6) := by
  have h := C7_project_points_map defaultCamera [(1, 2, 3), (4, 5, 6)]
  refine ⟨h.1, by norm_num, ?_⟩
  have h2 := h.2 1 (by norm_num)
  simpa using h2

/-- C9: the vanishing point is a fixed point of the projection at
every depth with nonzero denominator. -/
theorem C9_vanishing_point_fixed (c : PerspectiveCamera) (z : ℚ)
    (h : c.perspective_strength + z ≠ 0) :
    c.project_3d_to_2d c.vp_x c.vp_y z = (c.vp_x, c.vp_y) := by
  clear h
  simp [PerspectiveCamera.project_3d_to_2d]

/-- Witness for C9 at the default camera, depth 100. -/
theorem C9_vanishing_point_fixed_witness :
    defaultCamera.perspective_strength + 100 ≠ 0 ∧
    defaultCamera.project_3d_to_2d defaultCamera.vp_x defaultCamera.vp_y 100 =
      (defaultCamera.vp_x, defaultCamera.vp_y) := by
  have h : defaultCamera.perspective_strength + 100 ≠ 0 := by
    norm_num [defaultCamera, PerspectiveCamera.init]
  exact ⟨h, C9_vanishing_point_fixed defaultCamera 100 h⟩

/-- C3 as stated is false: at `(x, y)` equal to the vanishing point the
projected point sits on the vanishing point at every depth, so it is
not *strictly* closer at the larger depth; and a depth behind the
camera (`z₁ = -600` with strength 300) projects `(0, 0)` as far from
the vanishing point as `z₂ = 0` does.  (Distances are compared
squared, which is equivalent for Euclidean distances.) -/
theorem C3_counterexample :
    (0 < defaultCamera.perspective_strength ∧ (0 : ℚ) < 100 ∧
      ¬ distSq2 (defaultCamera.project_3d_to_2d 400 450 100)
            (defaultCamera.vp_x, defaultCamera.vp_y) <
          distSq2 (defaultCamera.project_3d_to_2d 400 450 0)
            (defaultCamera.vp_x, defaultCamera.vp_y)) ∧
    (0 < defaultCamera.perspective_strength ∧ (-600 : ℚ) < 0 ∧
      ¬ distSq2 (defaultCamera.project_3d_to_2d 0 0 0)
            (defaultCamera.vp_x, defaultCamera.vp_y) <
          distSq2 (defaultCamera.project_3d_to_2d 0 0 (-600))
            (defaultCamera.vp_x, defaultCamera.vp_y)) := by
  norm_num [defaultCamera, PerspectiveCamera.init,
    PerspectiveCamera.project_3d_to_2d, distSq2]

/-- C3 amended: for `(x, y)` distinct from the vanishing point, a
positive `perspective_strength`, and depths `-perspective_strength <
z₁ < z₂`, the point projected at depth `z₂` is strictly closer to the
vanishing point than the point projected at depth `z₁` (squared
Euclidean distances). -/
theorem C3_monotone_convergence (c : PerspectiveCamera) (x y z₁ z₂ : ℚ)
    (hs : 0 < c.perspective_strength)
    (hxy : (x, y) ≠ (c.vp_x, c.vp_y))
    (h₁ : -c.perspective_strength < z₁) (h₁₂ : z₁ < z₂) :
    distSq2 (c.project_3d_to_2d x y z₂) (c.vp_x, c.vp_y) <
      distSq2 (c.project_3d_to_2d x y z₁) (c.vp_x, c.vp_y) := by
  set s := c.perspective_strength with hs_def
  have hd₁ : 0 < s + z₁ := by linarith
  have hd₂ : 0 < s + z₂ := by linarith
  have hf₂pos : 0 < s / (s + z₂) := div_pos hs hd₂
  have hflt : s / (s + z₂) < s / (s + z₁) :=
    div_lt_div_of_pos_left hs hd₁ (by linarith)
  have hfsq : (s / (s + z₂)) ^ 2 < (s / (s + z₁)) ^ 2 := by
    have h2 := mul_self_lt_mul_self (le_of_lt hf₂pos) hflt
    simpa [pow_two] using h2
  have hd0 : 0 < (x - c.vp_x) ^ 2 + (y - c.vp_y) ^ 2 := by
    by_cases hx : x = c.vp_x
    · have hy : y ≠ c.vp_y := by
        intro hy; exact hxy (by simp [hx, hy])
      have hy2 : 0 < (y - c.vp_y) ^ 2 :=
        pow_two_pos_of_ne_zero (sub_ne_zero.mpr hy)
      nlinarith [sq_nonneg (x - c.vp_x)]
    · have hx2 : 0 < (x - c.vp_x) ^ 2 :=
        pow_two_pos_of_ne_zero (sub_ne_zero.mpr hx)
      nlinarith [sq_nonneg (y - c.vp_y)]
  have hexp : ∀ z : ℚ,
      distSq2 (c.project_3d_to_2d x y z) (c.vp_x, c.vp_y) =
        (s / (s + z)) ^ 2 * ((x - c.vp_x) ^ 2 + (y - c.vp_y) ^ 2) := by
    intro z
    simp only [distSq2, PerspectiveCamera.project_3d_to_2d]
    ring
  rw [hexp z₁, hexp z₂]
  exact mul_lt_mul_of_pos_right hfsq hd0

/-- Witness for the amended C3 at the default camera. -/
theorem C3_monotone_convergence_witness :
    (0 < defaultCamera.perspective_strength ∧
      ((100 : ℚ), (200 : ℚ)) ≠ (defaultCamera.vp_x, defaultCamera.vp_y) ∧
      -defaultCamera.perspective_strength < (0 : ℚ) ∧ (0 : ℚ) < 50) ∧
    distSq2 (defaultCamera.project_3d_to_2d 100 200 50)
        (defaultCamera.vp_x, defaultCamera.vp_y) <
      distSq2 (defaultCamera.project_3d_to_2d 100 200 0)
        (defaultCamera.vp_x, defaultCamera.vp_y) := by
  refine ⟨⟨?_, ?_, ?_, by norm_num⟩, ?_⟩
  · norm_num [defaultCamera, PerspectiveCamera.init]
  · norm_num [defaultCamera, PerspectiveCamera.init]
  · norm_num [defaultCamera, PerspectiveCamera.init]
  · exact C3_monotone_convergence defaultCamera 100 200 0 50
      (by norm_num [defaultCamera, PerspectiveCamera.init])
      (by norm_num [defaultCamera, PerspectiveCamera.init])
      (by norm_num [defaultCamera, PerspectiveCamera.init])
      (by norm_num)

/-- C5: a cube has 8 world vertices at `center + local * (size / 2)`
over all sign combinations, 12 edges (closed back quadrilateral at
`z = -1`, closed front quadrilateral at `z = 1`, four connectors
joining corresponding corners), and `update_position` translates every
world vertex by exactly the position delta.  The hypothesis records
that `vertices_3d` is the list `__init__`/`update_position` maintain. -/
theorem C5_cube_structure (cube : WireframeCube)
    (new_position : ℚ × ℚ × ℚ)
    (h : cube.vertices_3d = cube.calculate_world_vertices) :
    WireframeCube.UNIT_CUBE_VERTICES.length = 8 ∧
    (∀ a ∈ [(-1 : ℚ), 1], ∀ b ∈ [(-1 : ℚ), 1], ∀ c ∈ [(-1 : ℚ), 1],
      (a, b, c) ∈ WireframeCube.UNIT_CUBE_VERTICES) ∧
    (∀ v ∈ WireframeCube.UNIT_CUBE_VERTICES,
      (v.1 = -1 ∨ v.1 = 1) ∧ (v.2.1 = -1 ∨ v.2.1 = 1) ∧
      (v.2.2 = -1 ∨ v.2.2 = 1)) ∧
    cube.vertices_3d.length = 8 ∧
    cube.vertices_3d = WireframeCube.UNIT_CUBE_VERTICES.map (fun v =>
      (cube.position.1 + v.1 * (cube.size / 2),
       cube.position.2.1 + v.2.1 * (cube.size / 2),
       cube.position.2.2 + v.2.2 * (cube.size / 2))) ∧
    WireframeCube.EDGES.length = 12 ∧
    (∀ k < 4, WireframeCube.EDGES.getD k (0, 0) = (k, (k + 1) % 4) ∧
      (WireframeCube.UNIT_CUBE_VERTICES.getD k 0).2.2 = -1) ∧
    (∀ k < 4,
      WireframeCube.EDGES.getD (4 + k) (0, 0) = (4 + k, 4 + (k + 1) % 4) ∧
      (WireframeCube.UNIT_CUBE_VERTICES.getD (4 + k) 0).2.2 = 1) ∧
    (∀ k < 4, WireframeCube.EDGES.getD (8 + k) (0, 0) = (k, k + 4) ∧
      (WireframeCube.UNIT_CUBE_VERTICES.getD k 0).1 =
        (WireframeCube.UNIT_CUBE_VERTICES.getD (k + 4) 0).1 ∧
      (WireframeCube.UNIT_CUBE_VERTICES.getD k 0).2.1 =
        (WireframeCube.UNIT_CUBE_VERTICES.getD (k + 4) 0).2.1) ∧
    (cube.update_position new_position).vertices_3d =
      cube.vertices_3d.map (fun v =>
        (v.1 + (new_position.1 - cube.position.1),
         v.2.1 + (new_position.2.1 - cube.position.2.1),
         v.2.2 + (new_position.2.2 - cube.position.2.2))) := by
  refine ⟨by decide, by decide, by decide, ?_, ?_, by decide, by decide,
    by decide, by decide, ?_⟩
  · rw [h]
    simp [WireframeCube.calculate_world_vertices,
      WireframeCube.UNIT_CUBE_VERTICES]
  · rw [h]
    rfl
  · rw [h]
    simp only [WireframeCube.update_position,
      WireframeCube.calculate_world_vertices, List.map_map]
    refine List.map_congr_left fun v _ => ?_
    refine Prod.ext (by simp; ring) (Prod.ext (by simp; ring) (by simp; ring))

/-- Witness for C5 on a cube built by `__init__` at `(1, 2, 3)` with
size 4, moved to `(5, 6, 7)`. -/
theorem C5_cube_structure_witness :
    (WireframeCube.init (1, 2, 3) 4).vertices_3d =
      (WireframeCube.init (1, 2, 3) 4).calculate_world_vertices ∧
    ((WireframeCube.init (1, 2, 3) 4).update_position (5, 6, 7)).vertices_3d =
      (WireframeCube.init (1, 2, 3) 4).vertices_3d.map (fun v =>
        (v.1 + ((5 : ℚ) - (WireframeCube.init (1, 2, 3) 4).position.1),
         v.2.1 + ((6 : ℚ) - (WireframeCube.init (1, 2, 3) 4).position.2.1),
         v.2.2 + ((7 : ℚ) - (WireframeCube.init (1, 2, 3) 4).position.2.2))) := by
  have h : (WireframeCube.init (1, 2, 3) 4).vertices_3d =
      (WireframeCube.init (1, 2, 3) 4).calculate_world_vertices := rfl
  exact ⟨h,
    (C5_cube_structure (WireframeCube.init (1, 2, 3) 4) (5, 6, 7) h
      ).2.2.2.2.2.2.2.2.2⟩

/-- C8: at any simultaneous sample `now`, the hue used to derive the
apple color is the snake hue plus 0.333, modulo 1. -/
theorem C8_apple_hue_offset (c : ColorEvolution) (now : ℚ) :
    (c.get_apple_color now).1 =
      qfmod ((c.get_snake_color now).1 + 333 / 1000) 1 := rfl

/-- Normalizing a vector of positive squared norm yields a unit
vector. -/
theorem normSq3_normalizeV (v : ℝ × ℝ × ℝ)
    (h : 0 < v.1 * v.1 + v.2.1 * v.2.1 + v.2.2 * v.2.2) :
    normSq3 (normalizeV v) = 1 := by
  have hL : Real.sqrt (v.1 * v.1 + v.2.1 * v.2.1 + v.2.2 * v.2.2) ≠ 0 :=
    ne_of_gt (Real.sqrt_pos.mpr h)
  simp only [normSq3, normalizeV]
  field_simp
  ring

/-- Each raw icosahedron vertex has positive squared norm. -/
theorem icoRaw_normSq_pos : ∀ v ∈ icoRawVertices,
    0 < v.1 * v.1 + v.2.1 * v.2.1 + v.2.2 * v.2.2 := by
  intro v hv
  have hphi := mul_self_nonneg phi
  fin_cases hv <;> simp <;> nlinarith [hphi]

/-- Every generated icosahedron base vertex is unit length. -/
theorem generate_icosahedron_unit :
    ∀ w ∈ LowPolySphere.generate_icosahedron, normSq3 w = 1 := by
  intro w hw
  rcases List.mem_map.mp hw with ⟨v, hv, rfl⟩
  exact normSq3_normalizeV v (icoRaw_normSq_pos v hv)

/-- Rotation about the Y axis preserves the squared norm. -/
theorem rotate_y_normSq (v : ℝ × ℝ × ℝ) (angle_deg : ℝ) :
    normSq3 (LowPolySphere.rotate_y v angle_deg) = normSq3 v := by
  have h := Real.sin_sq_add_cos_sq (angle_deg * Real.pi / 180)
  simp only [normSq3, LowPolySphere.rotate_y]
  linear_combination (v.1 ^ 2 + v.2.2 ^ 2) * h

/-- `__init__` establishes the sphere representation invariant. -/
theorem sphereWF_init (position_3d : ℝ × ℝ × ℝ) (size : ℝ) :
    SphereWF (LowPolySphere.init position_3d size) :=
  ⟨rfl, rfl⟩

/-- Every game-loop call preserves the sphere representation
invariant. -/
theorem sphereWF_applySphereOp (s : LowPolySphere) (op : SphereOp)
    (h : SphereWF s) : SphereWF (applySphereOp s op) := by
  cases op with
  | update dt => exact ⟨h.1, rfl⟩
  | move p => exact ⟨h.1, rfl⟩

/-- Sequences of game-loop calls preserve the sphere representation
invariant. -/
theorem sphereWF_applySphereOps (ops : List SphereOp) :
    ∀ s : LowPolySphere, SphereWF s → SphereWF (applySphereOps s ops) := by
  induction ops with
  | nil => exact fun s h => h
  | cons op rest ih =>
      exact fun s h => ih (applySphereOp s op) (sphereWF_applySphereOp s op h)

/-- Game-loop calls never change the sphere size. -/
theorem size_applySphereOps (ops : List SphereOp) :
    ∀ s : LowPolySphere, (applySphereOps s ops).size = s.size := by
  induction ops with
  | nil => exact fun s => rfl
  | cons op rest ih =>
      intro s
      have hop : (applySphereOp s op).size = s.size := by
        cases op <;> rfl
      rw [applySphereOps] at *
      calc (List.foldl applySphereOp s (op :: rest)).size
          = (applySphereOps (applySphereOp s op) rest).size := rfl
        _ = (applySphereOp s op).size := ih (applySphereOp s op)
        _ = s.size := hop

/-- In a well-formed sphere every world vertex lies at distance
`size` (for nonnegative `size`) from the centre. -/
theorem sphere_radius (s : LowPolySphere) (hwf : SphereWF s)
    (hsz : 0 ≤ s.size) :
    ∀ v ∈ s.vertices_3d, Real.sqrt (distSq3 v s.position) = s.size := by
  intro v hv
  rw [hwf.2] at hv
  simp only [LowPolySphere.calculate_world_vertices] at hv
  rcases List.mem_map.mp hv with ⟨b, hb, rfl⟩
  have hb1 : normSq3 b = 1 := generate_icosahedron_unit b (hwf.1 ▸ hb)
  have hrot : normSq3 (LowPolySphere.rotate_y b s.rotation_angle) = 1 := by
    rw [rotate_y_normSq]; exact hb1
  have hdist : distSq3
      (s.position.1 + (LowPolySphere.rotate_y b s.rotation_angle).1 * s.size,
       s.position.2.1 + (LowPolySphere.rotate_y b s.rotation_angle).2.1 * s.size,
       s.position.2.2 + (LowPolySphere.rotate_y b s.rotation_angle).2.2 * s.size)
      s.position =
      s.size ^ 2 * normSq3 (LowPolySphere.rotate_y b s.rotation_angle) := by
    simp only [distSq3, normSq3]
    ring
  rw [hdist, hrot, mul_one, Real.sqrt_sq hsz]

/-- C2 fails on the code: the icosahedron has 12 base vertices, but
its 30-entry edge list contains the undirected edge {5, 9} twice (as
`(5, 9)` and `(9, 5)`), omits {1, 8}, and so spans only 29 distinct
undirected edges, with vertices 1 and 8 of degree 4 and vertices 5 and
9 of degree 6 instead of every vertex having degree 5.  This theorem
evaluates the edge list and exhibits the divergence. -/
theorem C2_icosahedron_edge_bug :
    LowPolySphere.generate_icosahedron.length = 12 ∧
    LowPolySphere.generate_edges.length = 30 ∧
    (5, 9) ∈ LowPolySphere.generate_edges ∧
    (9, 5) ∈ LowPolySphere.generate_edges ∧
    (LowPolySphere.generate_edges.filter
      (fun e => e = (1, 8) ∨ e = (8, 1))).length = 0 ∧
    ((LowPolySphere.generate_edges.map
      (fun e => (min e.1 e.2, max e.1 e.2))).dedup).length = 29 ∧
    LowPolySphere.edge_degree 0 = 5 ∧
    LowPolySphere.edge_degree 1 = 4 ∧
    LowPolySphere.edge_degree 8 = 4 ∧
    LowPolySphere.edge_degree 5 = 6 ∧
    LowPolySphere.edge_degree 9 = 6 := by
  refine ⟨?_, by decide, by decide, by decide, by decide, by decide,
    by decide, by decide, by decide, by decide, by decide⟩
  simp [LowPolySphere.generate_icosahedron, icoRawVertices]

/-- C6: `update(dt)` sets the rotation angle to
`(previous + rotation_speed * dt) mod 360` (with `rotation_speed = 10`
and `dt = 1` that is `(previous + 10) mod 360`), and recomputes each
world vertex by rotating the local vertex about the vertical axis
(`x' = x cos θ + z sin θ`, `z' = -x sin θ + z cos θ`, `y` unchanged,
`θ` the new angle in radians), then scaling by `size` and translating
by the centre. -/
theorem C6_sphere_update (s : LowPolySphere) (dt : ℝ) :
    (s.update dt).rotation_angle =
      rfmod (s.rotation_angle + s.rotation_speed * dt) 360 ∧
    (s.rotation_speed = 10 →
      (s.update 1).rotation_angle = rfmod (s.rotation_angle + 10) 360) ∧
    (s.update dt).vertices_3d = s.base_vertices.map (fun v =>
      (s.position.1 +
        (v.1 * Real.cos ((s.update dt).rotation_angle * Real.pi / 180) +
         v.2.2 * Real.sin ((s.update dt).rotation_angle * Real.pi / 180)) *
        s.size,
       s.position.2.1 + v.2.1 * s.size,
       s.position.2.2 +
        (-v.1 * Real.sin ((s.update dt).rotation_angle * Real.pi / 180) +
         v.2.2 * Real.cos ((s.update dt).rotation_angle * Real.pi / 180)) *
        s.size)) := by
  refine ⟨rfl, fun h10 => ?_, rfl⟩
  have h1 : (s.update 1).rotation_angle =
      rfmod (s.rotation_angle + s.rotation_speed * 1) 360 := rfl
  rw [h1, h10, mul_one]

/-- Witness for C6 on a freshly constructed sphere
(`rotation_speed = 10`) with `dt = 1`. -/
theorem C6_sphere_update_witness :
    (LowPolySphere.init (0, 0, 0) 20).rotation_speed = 10 ∧
    ((LowPolySphere.init (0, 0, 0) 20).update 1).rotation_angle =
      rfmod ((LowPolySphere.init (0, 0, 0) 20).rotation_angle + 10) 360 := by
  have h : (LowPolySphere.init (0, 0, 0) 20).rotation_speed = 10 := rfl
  exact ⟨h, (C6_sphere_update (LowPolySphere.init (0, 0, 0) 20) 1).2.1 h⟩

/-- C10: after construction and any sequence of `update` /
`update_position` calls, every world vertex of the sphere lies at
Euclidean distance exactly `size` from the current centre position
(exact real arithmetic; `size` nonnegative). -/
theorem C10_sphere_radius_invariant (position_3d : ℝ × ℝ × ℝ)
    (size : ℝ) (hsz : 0 ≤ size) (ops : List SphereOp) (v : ℝ × ℝ × ℝ)
    (hv : v ∈ (applySphereOps (LowPolySphere.init position_3d size) ops
      ).vertices_3d) :
    Real.sqrt (distSq3 v
      (applySphereOps (LowPolySphere.init position_3d size) ops).position) =
      size := by
  have hwf := sphereWF_applySphereOps ops _ (sphereWF_init position_3d size)
  have hsize : (applySphereOps (LowPolySphere.init position_3d size) ops
      ).size = size :=
    size_applySphereOps ops (LowPolySphere.init position_3d size)
  have hrad := sphere_radius _ hwf (by rw [hsize]; exact hsz) v hv
  rw [hrad, hsize]

/-- Witness for C10: the first world vertex of a fresh sphere of size
20 at the origin, after an empty call sequence. -/
theorem C10_sphere_radius_invariant_witness :
    (0 : ℝ) ≤ 20 ∧
    Real.sqrt (distSq3
      ((applySphereOps (LowPolySphere.init (0, 0, 0) 20) []).vertices_3d.headI)
      (applySphereOps (LowPolySphere.init (0, 0, 0) 20) []).position) = 20 := by
  have hlen : (applySphereOps (LowPolySphere.init (0, 0, 0) 20) []
      ).vertices_3d.length = 12 := by
    simp [applySphereOps, LowPolySphere.init,
      LowPolySphere.calculate_world_vertices,
      LowPolySphere.generate_icosahedron, icoRawVertices]
  have hne : (applySphereOps (LowPolySphere.init (0, 0, 0) 20) []
      ).vertices_3d ≠ [] := by
    intro hnil
    rw [hnil] at hlen
    exact absurd hlen (by norm_num)
  have hmem : (applySphereOps (LowPolySphere.init (0, 0, 0) 20) []
        ).vertices_3d.headI ∈
      (applySphereOps (LowPolySphere.init (0, 0, 0) 20) []).vertices_3d := by
    cases hl : (applySphereOps (LowPolySphere.init (0, 0, 0) 20) []
        ).vertices_3d with
    | nil => exact absurd hl hne
    | cons a l => simp
  exact ⟨by norm_num,
    C10_sphere_radius_invariant (0, 0, 0) 20 (by norm_num) [] _ hmem⟩

end PySnake
